import Mathlib

/-!
Verification of the auto-scoring core of the EduBase IELTS application
(`attempts/views.py`): the answer normalizer `normalize_answer` and the
band-score computation `calculate_auto_score`.

Modelling conventions for the Python source:
* Python runtime values reaching the scorer are modelled by the inductive
  type `PyVal` (None, bool, int, str, list).  Python truthiness (`if not ans`)
  is `PyVal.truthy`; `str(...)` coercion is `PyVal.toStr` (`repr` of nested
  values is modelled without escaping of quotes inside strings, which no
  input in this development exercises).
* Python exceptions (the only candidate here is the `IndexError` of `ans[0]`
  on an empty list) are modelled by the `Except String` monad; a function
  returns `Except.ok` exactly when the Python code returns normally.
* `str.strip()` is modelled character-wise over the string's character list,
  stripping the ASCII whitespace characters recognised by `Char.isWhitespace`;
  `str.lower()` applied to the single extracted character is `Char.toLower`.
  (Exotic Unicode case/space handling is outside the inputs considered.)
* CPython float arithmetic in the band computation is modelled as exact
  rational arithmetic over `ℚ`, and Python's `round` (round-half-to-even on
  the argument) is `pyRound`.
* Python dicts are modelled as association lists with `List.lookup`.
-/

/-- A Python runtime value, as far as the scoring code can observe it. -/
inductive PyVal : Type where
  | vNone : PyVal
  | vBool : Bool → PyVal
  | vInt : Int → PyVal
  | vStr : String → PyVal
  | vList : List PyVal → PyVal

/-- Python truthiness: `bool(v)`.  `None`, `False`, `0`, `""` and `[]` are
falsy, everything else here is truthy. -/
def PyVal.truthy : PyVal → Bool
  | .vNone => false
  | .vBool b => b
  | .vInt n => n != 0
  | .vStr s => !s.data.isEmpty
  | .vList xs => !xs.isEmpty

/-- Python `repr(v)` (string quoting is modelled without escaping). -/
def PyVal.pyRepr : PyVal → String
  | .vNone => "None"
  | .vBool b => if b then "True" else "False"
  | .vInt n => toString n
  | .vStr s => "\x27" ++ s ++ "\x27"
  | .vList xs => "[" ++ String.intercalate ", " (xs.attach.map fun x => PyVal.pyRepr x.1) ++ "]"
decreasing_by
  have := List.sizeOf_lt_of_mem x.2
  simp only [PyVal.vList.sizeOf_spec]
  omega

/-- Python `str(v)`: the identity on strings, `repr` otherwise. -/
def PyVal.toStr : PyVal → String
  | .vStr s => s
  | v => v.pyRepr

/-- Whether a value is a Python `str`. -/
def PyVal.isStrVal : PyVal → Bool
  | .vStr _ => true
  | _ => false

/-- Whether a value is a Python `list`. -/
def PyVal.isListVal : PyVal → Bool
  | .vList _ => true
  | _ => false

/-- A value of the shape the submission layer actually produces for a
question key: a single string, or a list of strings. -/
def PyVal.isWellTypedAnswer : PyVal → Bool
  | .vStr _ => true
  | .vList xs => xs.all fun x => x.isStrVal
  | _ => false

/-- Python `xs[0]`: the first element, or an `IndexError` when empty. -/
def listFirst : List PyVal → Except String PyVal
  | [] => Except.error "IndexError: list index out of range"
  | x :: _ => Except.ok x

/-- Drop leading whitespace from a character list (one side of `str.strip()`). -/
def stripLeftChars : List Char → List Char
  | [] => []
  | c :: cs => if c.isWhitespace then stripLeftChars cs else c :: cs

/-- Python `s.strip()`: whitespace removed from both ends. -/
def pyStrip (s : String) : String :=
  ⟨(stripLeftChars (stripLeftChars s.data).reverse).reverse⟩

/-- The token the normalizer extracts from an already-coerced string `t`:
`t.strip()[0].lower()` when the stripped string is nonempty, `""` otherwise.
This is the tail of `normalize_answer` after the falsiness and list steps. -/
def tokenOfString (t : String) : String :=
  match (pyStrip t).data with
  | [] => ""
  | c :: _ => String.singleton c.toLower

/-- Embedding of `normalize_answer` (views.py lines 106-113):

```
def normalize_answer(ans):
    if not ans:
        return ""
    if isinstance(ans, list):
        ans = ans[0]
    ans = str(ans).strip()
    return ans[0].lower() if ans else ""
```
-/
def normalize_answer (ans : PyVal) : Except String String := do
  if !ans.truthy then
    return ""
  let a ← match ans with
    | .vList xs => listFirst xs
    | v => pure v
  return tokenOfString a.toStr

/-- The total function `normalize_answer` computes: it never reaches the
`IndexError` branch because the falsiness check already catches `[]`. -/
def normTok (ans : PyVal) : String :=
  if !ans.truthy then ""
  else
    match ans with
    | .vList xs => tokenOfString (xs.headD PyVal.vNone).toStr
    | v => tokenOfString v.toStr

/-- A leaf grading unit (`subquestion` row): an identifier and the stored
`correct_answer` value (a string field in the schema, but carried as a
`PyVal` so that a NULL/missing value can also be discussed). -/
structure SubQuestion : Type where
  id : Nat
  correct_answer : PyVal

/-- A question row, owning its subquestions. -/
structure Question : Type where
  subquestions : List SubQuestion

/-- A reading passage row, owning its questions. -/
structure ReadingPassage : Type where
  questions : List Question

/-- A listening audio row, owning its questions. -/
structure ListeningAudio : Type where
  questions : List Question

/-- The slice of an `Exam` row that `calculate_auto_score` reads: the section
type and the two nested question hierarchies. -/
structure Exam : Type where
  section_type : String
  reading_passages : List ReadingPassage
  listening_audios : List ListeningAudio

/-- The submitted answer mapping (a JSON-decoded Python dict). -/
abbrev AnswerMap := List (String × PyVal)

/-- The loop body of `calculate_auto_score` for one subquestion, threading the
`(correct_count, total_questions)` accumulator:

```
total_questions += 1
question_key = f"q_{subq.id}"
if question_key in answers:
    student_answer = normalize_answer(answers[question_key])
    correct_answer = normalize_answer(subq.correct_answer)
    if student_answer == correct_answer:
        correct_count += 1
```
-/
def stepSubq (answers : AnswerMap) (acc : Nat × Nat) (subq : SubQuestion) :
    Except String (Nat × Nat) := do
  let total_questions := acc.2 + 1
  let question_key := "q_" ++ toString subq.id
  match answers.lookup question_key with
  | none => return (acc.1, total_questions)
  | some v => do
    let student_answer ← normalize_answer v
    let corr ← normalize_answer subq.correct_answer
    if student_answer = corr then
      return (acc.1 + 1, total_questions)
    else
      return (acc.1, total_questions)

/-- The inner `for subq in question.subquestions.all()` loop. -/
def tallyQuestion (answers : AnswerMap) (acc : Nat × Nat) (q : Question) :
    Except String (Nat × Nat) :=
  q.subquestions.foldlM (stepSubq answers) acc

/-- The `for question in passage.questions.all()` loop of the reading branch. -/
def tallyPassage (answers : AnswerMap) (acc : Nat × Nat) (p : ReadingPassage) :
    Except String (Nat × Nat) :=
  p.questions.foldlM (tallyQuestion answers) acc

/-- The `for question in audio.questions.all()` loop of the listening branch. -/
def tallyAudio (answers : AnswerMap) (acc : Nat × Nat) (au : ListeningAudio) :
    Except String (Nat × Nat) :=
  au.questions.foldlM (tallyQuestion answers) acc

/-- Python's built-in `round` on the exact rational value of its argument:
round to the nearest integer, ties to the even integer. -/
def pyRound (q : ℚ) : ℤ :=
  if q - ⌊q⌋ < 1/2 then ⌊q⌋
  else if (1 : ℚ)/2 < q - ⌊q⌋ then ⌊q⌋ + 1
  else if ⌊q⌋ % 2 = 0 then ⌊q⌋ else ⌊q⌋ + 1

/-- Embedding of `calculate_auto_score` (views.py lines 116-158).  Float
arithmetic is modelled exactly over `ℚ`:

```
correct_count = 0
total_questions = 0
if exam.section_type == 'reading':
    for passage in exam.reading_passages.all(): ... (stepSubq)
elif exam.section_type == 'listening':
    for audio in exam.listening_audios.all(): ... (stepSubq)
if total_questions == 0:
    return 0.0
percentage = (correct_count / total_questions) * 100
raw_band = percentage / 10
band = round(raw_band * 2) / 2
return min(band, 9.0)
```
-/
def calculate_auto_score (exam : Exam) (answers : AnswerMap) : Except String ℚ := do
  let init : Nat × Nat := (0, 0)
  let counts ←
    if exam.section_type = "reading" then
      exam.reading_passages.foldlM (tallyPassage answers) init
    else if exam.section_type = "listening" then
      exam.listening_audios.foldlM (tallyAudio answers) init
    else
      pure init
  let correct_count := counts.1
  let total_questions := counts.2
  if total_questions = 0 then
    return (0 : ℚ)
  let percentage : ℚ := ((correct_count : ℚ) / (total_questions : ℚ)) * 100
  let raw_band : ℚ := percentage / 10
  let band : ℚ := ((pyRound (raw_band * 2) : ℤ) : ℚ) / 2
  return min band (9 : ℚ)

/-- The leaf grading units the scorer traverses for a given exam, in
traversal order. -/
def Exam.leafUnits (e : Exam) : List SubQuestion :=
  if e.section_type = "reading" then
    e.reading_passages.flatMap fun p => p.questions.flatMap fun q => q.subquestions
  else if e.section_type = "listening" then
    e.listening_audios.flatMap fun au => au.questions.flatMap fun q => q.subquestions
  else []

/-- Whether one leaf unit is counted as correct: its key `q_<id>` is present
in the mapping and the normalized submitted value equals the normalized
`correct_answer`.  A unit whose key is absent is never counted. -/
def countedCorrect (answers : AnswerMap) (subq : SubQuestion) : Bool :=
  match answers.lookup ("q_" ++ toString subq.id) with
  | none => false
  | some v => normTok v == normTok subq.correct_answer

/-- Number of leaf units of `units` counted as correct under `answers`. -/
def correctCount (answers : AnswerMap) (units : List SubQuestion) : Nat :=
  units.countP fun sq => countedCorrect answers sq

/-- The band-score arithmetic applied to a `(correct, total)` tally:
`min(round(correct / total * 100 / 10 * 2) / 2, 9.0)`, with `0.0` for an
empty tally. -/
def bandScore (correct total : Nat) : ℚ :=
  if total = 0 then 0
  else min (((pyRound ((correct : ℚ) / (total : ℚ) * 100 / 10 * 2) : ℤ) : ℚ) / 2) (9 : ℚ)

/-- Whether an `Except` result is a normal return. -/
def isOkResult {α : Type} : Except String α → Bool
  | .ok _ => true
  | .error _ => false

/-- Concrete one-unit reading exam used as a witness input. -/
def examOne : Exam :=
  ⟨"reading", [⟨[⟨[⟨1, PyVal.vStr "B"⟩]⟩]⟩], []⟩

/-- A submission matching `examOne` after normalization. -/
def ansOne : AnswerMap := [("q_1", PyVal.vStr " b ")]

/-- Concrete three-unit reading exam used for the rounding-boundary claims. -/
def examThree : Exam :=
  ⟨"reading",
   [⟨[⟨[⟨1, PyVal.vStr "A"⟩, ⟨2, PyVal.vStr "B"⟩, ⟨3, PyVal.vStr "C"⟩]⟩]⟩],
   []⟩

/-- A submission with exactly one of the three units correct. -/
def ansOneOfThree : AnswerMap := [("q_1", PyVal.vStr "a"), ("q_2", PyVal.vStr "x")]

/-- A submission with exactly two of the three units correct. -/
def ansTwoOfThree : AnswerMap := [("q_1", PyVal.vStr "a"), ("q_2", PyVal.vStr "b")]

/-- A reading exam with no passages, hence no leaf units. -/
def examEmpty : Exam := ⟨"reading", [], []⟩

/-- A leaf unit whose stored `correct_answer` normalizes to the empty token. -/
def subqBlank : SubQuestion := ⟨5, PyVal.vStr ""⟩

/-- A mapping whose value for `q_5` also normalizes to the empty token. -/
def ansBlank : AnswerMap := [("q_5", PyVal.vStr "   ")]

/-- `normalize_answer` always returns normally, with the token `normTok`
computes: the falsiness check fires before the `ans[0]` indexing can see an
empty list, so the `IndexError` branch is unreachable. -/
theorem normalize_answer_ok (v : PyVal) :
    normalize_answer v = Except.ok (normTok v) := by
  cases v with
  | vNone => rfl
  | vBool b => cases b <;> rfl
  | vInt n =>
    by_cases h : n = 0
    · subst h; rfl
    · simp [normalize_answer, normTok, PyVal.truthy, h]; rfl
  | vStr s =>
    cases hd : s.data with
    | nil => simp [normalize_answer, normTok, PyVal.truthy, PyVal.toStr, hd,
        tokenOfString, pyStrip, stripLeftChars]; rfl
    | cons c cs => simp [normalize_answer, normTok, PyVal.truthy, PyVal.toStr, hd]; rfl
  | vList xs =>
    cases xs with
    | nil => rfl
    | cons x rest => rfl

/-- Binding a normal `Except` result just applies the continuation. -/
theorem ok_bind {a b : Type} (x : a) (f : a → Except String b) :
    (Except.ok x >>= f) = f x := rfl

/-- The loop body never fails and increments the tally exactly as
`countedCorrect` prescribes. -/
theorem stepSubq_eq (answers : AnswerMap) (acc : Nat × Nat) (subq : SubQuestion) :
    stepSubq answers acc subq =
      Except.ok (acc.1 + (if countedCorrect answers subq then 1 else 0), acc.2 + 1) := by
  unfold stepSubq countedCorrect
  cases hl : answers.lookup ("q_" ++ toString subq.id) with
  | none => simp only [hl]; rfl
  | some v =>
    simp only [hl, normalize_answer_ok, ok_bind]
    by_cases he : normTok v = normTok subq.correct_answer
    · rw [if_pos he, if_pos (beq_iff_eq.mpr he)]; rfl
    · rw [if_neg he, if_neg (fun hb => he (beq_iff_eq.mp hb))]; rfl

/-- Folding the loop body over a list of subquestions. -/
theorem foldlM_stepSubq (answers : AnswerMap) (sqs : List SubQuestion) (acc : Nat × Nat) :
    sqs.foldlM (stepSubq answers) acc =
      Except.ok (acc.1 + correctCount answers sqs, acc.2 + sqs.length) := by
  induction sqs generalizing acc with
  | nil => simp [List.foldlM, correctCount]; rfl
  | cons sq rest ih =>
    rw [List.foldlM_cons, stepSubq_eq]
    show (rest.foldlM (stepSubq answers) _) = _
    rw [ih]
    simp only [correctCount, List.countP_cons, List.length_cons, Except.ok.injEq,
      Prod.mk.injEq]
    constructor
    · by_cases h : countedCorrect answers sq <;> simp [h] <;> try omega
    · omega

/-- One question contributes its subquestions' tally. -/
theorem tallyQuestion_eq (answers : AnswerMap) (acc : Nat × Nat) (q : Question) :
    tallyQuestion answers acc q =
      Except.ok (acc.1 + correctCount answers q.subquestions,
        acc.2 + q.subquestions.length) :=
  foldlM_stepSubq answers q.subquestions acc

/-- Folding the per-question loop over a list of questions. -/
theorem foldlM_tallyQuestion (answers : AnswerMap) (qs : List Question) (acc : Nat × Nat) :
    qs.foldlM (tallyQuestion answers) acc =
      Except.ok
        (acc.1 + correctCount answers (qs.flatMap fun q => q.subquestions),
         acc.2 + (qs.flatMap fun q => q.subquestions).length) := by
  induction qs generalizing acc with
  | nil => simp [List.foldlM, correctCount]; rfl
  | cons q rest ih =>
    rw [List.foldlM_cons, tallyQuestion_eq, ok_bind, ih]
    simp only [List.flatMap_cons, correctCount, List.countP_append, List.length_append,
      Except.ok.injEq, Prod.mk.injEq]
    omega

/-- Folding the reading-passage loop. -/
theorem foldlM_tallyPassage (answers : AnswerMap) (ps : List ReadingPassage) (acc : Nat × Nat) :
    ps.foldlM (tallyPassage answers) acc =
      Except.ok
        (acc.1 + correctCount answers
          (ps.flatMap fun p => p.questions.flatMap fun q => q.subquestions),
         acc.2 + (ps.flatMap fun p => p.questions.flatMap fun q => q.subquestions).length) := by
  induction ps generalizing acc with
  | nil => simp [List.foldlM, correctCount]; rfl
  | cons p rest ih =>
    rw [List.foldlM_cons,
      show tallyPassage answers acc p = _ from foldlM_tallyQuestion answers p.questions acc,
      ok_bind, ih]
    simp only [List.flatMap_cons, correctCount, List.countP_append, List.length_append,
      Except.ok.injEq, Prod.mk.injEq]
    omega

/-- Folding the listening-audio loop. -/
theorem foldlM_tallyAudio (answers : AnswerMap) (aus : List ListeningAudio) (acc : Nat × Nat) :
    aus.foldlM (tallyAudio answers) acc =
      Except.ok
        (acc.1 + correctCount answers
          (aus.flatMap fun au => au.questions.flatMap fun q => q.subquestions),
         acc.2 + (aus.flatMap fun au => au.questions.flatMap fun q => q.subquestions).length) := by
  induction aus generalizing acc with
  | nil => simp [List.foldlM, correctCount]; rfl
  | cons au rest ih =>
    rw [List.foldlM_cons,
      show tallyAudio answers acc au = _ from foldlM_tallyQuestion answers au.questions acc,
      ok_bind, ih]
    simp only [List.flatMap_cons, correctCount, List.countP_append, List.length_append,
      Except.ok.injEq, Prod.mk.injEq]
    omega

/-- `calculate_auto_score` never fails and equals the band score of the
`(correct, total)` tally taken over the exam's leaf units. -/
theorem calculate_auto_score_eq (e : Exam) (a : AnswerMap) :
    calculate_auto_score e a =
      Except.ok (bandScore (correctCount a e.leafUnits) e.leafUnits.length) := by
  unfold calculate_auto_score Exam.leafUnits bandScore
  by_cases hr : e.section_type = "reading"
  · simp only [hr, ite_true, eq_self_iff_true, foldlM_tallyPassage, ok_bind, Nat.zero_add]
    by_cases h0 : (e.reading_passages.flatMap fun p =>
        p.questions.flatMap fun q => q.subquestions).length = 0
    · rw [if_pos h0, if_pos h0]; rfl
    · rw [if_neg h0, if_neg h0]; rfl
  · by_cases hl : e.section_type = "listening"
    · have hsr : ¬("listening" = "reading") := by decide
      simp only [hr, hl, if_neg hsr, ite_true, eq_self_iff_true,
        foldlM_tallyAudio, ok_bind, Nat.zero_add]
      by_cases h0 : (e.listening_audios.flatMap fun au =>
          au.questions.flatMap fun q => q.subquestions).length = 0
      · rw [if_pos h0, if_pos h0]; rfl
      · rw [if_neg h0, if_neg h0]; rfl
    · simp only [if_neg hr, if_neg hl]
      rfl

/-- Unfolding `pyRound` once the floor of its argument is known. -/
theorem pyRound_eq (q : ℚ) (n : ℤ) (hf : ⌊q⌋ = n) :
    pyRound q =
      if q - (n : ℚ) < 1/2 then n
      else if (1 : ℚ)/2 < q - (n : ℚ) then n + 1
      else if n % 2 = 0 then n else n + 1 := by
  unfold pyRound
  rw [hf]

/-- `round` of a nonnegative value is nonnegative. -/
theorem pyRound_nonneg (q : ℚ) (h : 0 ≤ q) : 0 ≤ pyRound q := by
  have hf : (0 : ℤ) ≤ ⌊q⌋ := Int.floor_nonneg.mpr h
  unfold pyRound
  split_ifs <;> omega

/-- `round(20/3) = 7` (the 1-of-3 boundary: 6.67 rounds up). -/
theorem pyRound_one_third_case : pyRound (20/3 : ℚ) = 7 := by
  have hf : ⌊(20/3 : ℚ)⌋ = 6 := Int.floor_eq_iff.mpr (by norm_num)
  rw [pyRound_eq _ _ hf, if_neg (by norm_num), if_pos (by norm_num)]
  norm_num

/-- `round(40/3) = 13` (the 2-of-3 boundary: 13.33 rounds down). -/
theorem pyRound_two_thirds_case : pyRound (40/3 : ℚ) = 13 := by
  have hf : ⌊(40/3 : ℚ)⌋ = 13 := Int.floor_eq_iff.mpr (by norm_num)
  rw [pyRound_eq _ _ hf, if_pos (by norm_num)]

/-- `round(20) = 20` (the all-correct case). -/
theorem pyRound_twenty : pyRound (20 : ℚ) = 20 := by
  have hf : ⌊(20 : ℚ)⌋ = 20 := Int.floor_eq_iff.mpr (by norm_num)
  rw [pyRound_eq _ _ hf, if_pos (by norm_num)]

/-- An empty tally scores 0. -/
theorem bandScore_zero_total (c : Nat) : bandScore c 0 = 0 := if_pos rfl

/-- One of three correct scores 3.5. -/
theorem bandScore_one_of_three : bandScore 1 3 = 7/2 := by
  unfold bandScore
  rw [if_neg (by norm_num),
    show ((1 : ℕ) : ℚ) / ((3 : ℕ) : ℚ) * 100 / 10 * 2 = 20/3 from by norm_num,
    pyRound_one_third_case, min_eq_left (by norm_num)]
  norm_num

/-- Two of three correct scores 6.5. -/
theorem bandScore_two_of_three : bandScore 2 3 = 13/2 := by
  unfold bandScore
  rw [if_neg (by norm_num),
    show ((2 : ℕ) : ℚ) / ((3 : ℕ) : ℚ) * 100 / 10 * 2 = 40/3 from by norm_num,
    pyRound_two_thirds_case, min_eq_left (by norm_num)]
  norm_num

/-- A perfect tally scores exactly 9. -/
theorem bandScore_full (t : Nat) (h : t ≠ 0) : bandScore t t = 9 := by
  unfold bandScore
  rw [if_neg h,
    show ((t : ℕ) : ℚ) / ((t : ℕ) : ℚ) * 100 / 10 * 2 = 20 from by
      rw [div_self (Nat.cast_ne_zero.mpr h)]; norm_num,
    pyRound_twenty, min_eq_right (by norm_num)]

/-- Every band score is nonnegative. -/
theorem bandScore_nonneg (c t : Nat) : 0 ≤ bandScore c t := by
  unfold bandScore
  split_ifs with h
  · exact le_refl 0
  · apply le_min
    · have harg : (0 : ℚ) ≤ (c : ℚ) / (t : ℚ) * 100 / 10 * 2 := by positivity
      have hr := pyRound_nonneg _ harg
      have : (0 : ℚ) ≤ ((pyRound ((c : ℚ) / (t : ℚ) * 100 / 10 * 2) : ℤ) : ℚ) :=
        Int.cast_nonneg.mpr hr
      linarith
    · norm_num

/-- Every band score is at most 9. -/
theorem bandScore_le_nine (c t : Nat) : bandScore c t ≤ 9 := by
  unfold bandScore
  split_ifs with h
  · norm_num
  · exact min_le_right _ _

/-- Every band score is an integer multiple of one half. -/
theorem bandScore_half_integer (c t : Nat) : ∃ n : ℤ, bandScore c t = (n : ℚ)/2 := by
  unfold bandScore
  split_ifs with h
  · exact ⟨0, by norm_num⟩
  · rcases le_total (((pyRound ((c : ℚ) / (t : ℚ) * 100 / 10 * 2) : ℤ) : ℚ)/2) 9 with hle | hge
    · exact ⟨_, min_eq_left hle⟩
    · exact ⟨18, by rw [min_eq_right hge]; norm_num⟩

/-- A single string value normalizes to the token of that string. -/
theorem normalize_answer_str (s : String) :
    normalize_answer (PyVal.vStr s) = Except.ok (tokenOfString s) := by
  rw [normalize_answer_ok]
  cases hd : s.data with
  | nil =>
    simp [normTok, PyVal.truthy, hd, PyVal.toStr, tokenOfString, pyStrip, stripLeftChars]
  | cons c cs =>
    simp [normTok, PyVal.truthy, hd, PyVal.toStr]

/-- A nonempty list whose first element is a string normalizes to the token
of that first string; later elements are ignored. -/
theorem normalize_answer_str_list (s : String) (rest : List PyVal) :
    normalize_answer (PyVal.vList (PyVal.vStr s :: rest)) =
      Except.ok (tokenOfString s) := rfl

/-- C1: for every question set with at least one leaf grading unit and every
answer mapping, `calculate_auto_score` returns
`min(round(((100 * correct / total) / 10) * 2) / 2, 9.0)` where `total` is
the number of leaf units and `correct` the number of leaf units whose key
`q_<id>` is present with normalized submitted value equal to the normalized
`correct_answer` (`countedCorrect`); an absent key is never counted.
`round` is Python's round-half-to-even (`pyRound`) on the exact value. -/
theorem claim_C1_autoscore_formula (e : Exam) (a : AnswerMap)
    (h : 0 < e.leafUnits.length) :
    calculate_auto_score e a =
      Except.ok (min
        (((pyRound (100 * (correctCount a e.leafUnits : ℚ) /
            (e.leafUnits.length : ℚ) / 10 * 2) : ℤ) : ℚ) / 2)
        (9 : ℚ)) := by
  rw [calculate_auto_score_eq]
  unfold bandScore
  rw [if_neg (Nat.pos_iff_ne_zero.mp h),
    show (correctCount a e.leafUnits : ℚ) / (e.leafUnits.length : ℚ) * 100 / 10 * 2
      = 100 * (correctCount a e.leafUnits : ℚ) / (e.leafUnits.length : ℚ) / 10 * 2
      from by ring]

/-- Witness for C1 at a concrete one-unit exam. -/
theorem claim_C1_witness :
    calculate_auto_score examOne ansOne =
      Except.ok (min
        (((pyRound (100 * (correctCount ansOne examOne.leafUnits : ℚ) /
            (examOne.leafUnits.length : ℚ) / 10 * 2) : ℤ) : ℚ) / 2)
        (9 : ℚ)) :=
  claim_C1_autoscore_formula examOne ansOne (by decide)

/-- C2: for every question set and answer mapping the returned score is a
normal result lying in `[0, 9]` and an integer multiple of `0.5`. -/
theorem claim_C2_autoscore_range (e : Exam) (a : AnswerMap) :
    ∃ q : ℚ, calculate_auto_score e a = Except.ok q ∧
      0 ≤ q ∧ q ≤ 9 ∧ ∃ n : ℤ, q = (n : ℚ)/2 :=
  ⟨bandScore (correctCount a e.leafUnits) e.leafUnits.length,
    calculate_auto_score_eq e a, bandScore_nonneg _ _, bandScore_le_nine _ _,
    bandScore_half_integer _ _⟩

/-- C3: on well-typed input (string or list-of-string submitted values,
string `correct_answer` fields) the scorer terminates normally with no
error, and a leaf unit whose key is absent from the mapping contributes to
the total but never to the correct count. -/
theorem claim_C3_no_throw (e : Exam) (a : AnswerMap)
    (hA : a.all (fun kv => kv.2.isWellTypedAnswer) = true)
    (hE : e.leafUnits.all (fun sq => sq.correct_answer.isStrVal) = true) :
    (∃ q : ℚ, calculate_auto_score e a = Except.ok q) ∧
    (∀ (acc : Nat × Nat) (sq : SubQuestion),
      a.lookup ("q_" ++ toString sq.id) = none →
      stepSubq a acc sq = Except.ok (acc.1, acc.2 + 1)) := by
  refine ⟨⟨_, calculate_auto_score_eq e a⟩, ?_⟩
  intro acc sq hnone
  rw [stepSubq_eq]
  have hcc : countedCorrect a sq = false := by
    unfold countedCorrect
    rw [hnone]
  rw [hcc]
  simp

/-- Witness for C3 at a concrete well-typed exam and mapping. -/
theorem claim_C3_witness :
    ∃ q : ℚ, calculate_auto_score examOne ansOne = Except.ok q :=
  (claim_C3_no_throw examOne ansOne (by decide) (by decide)).1

/-- C4: with exactly 3 leaf units, 1 counted correct scores 3.5 and
2 counted correct score 6.5. -/
theorem claim_C4_three_unit_boundaries (e e' : Exam) (a a' : AnswerMap)
    (ht : e.leafUnits.length = 3) (hc : correctCount a e.leafUnits = 1)
    (ht' : e'.leafUnits.length = 3) (hc' : correctCount a' e'.leafUnits = 2) :
    calculate_auto_score e a = Except.ok (7/2) ∧
    calculate_auto_score e' a' = Except.ok (13/2) := by
  constructor
  · rw [calculate_auto_score_eq, hc, ht, bandScore_one_of_three]
  · rw [calculate_auto_score_eq, hc', ht', bandScore_two_of_three]

/-- Witness for C4 at a concrete three-unit exam. -/
theorem claim_C4_witness :
    calculate_auto_score examThree ansOneOfThree = Except.ok (7/2) ∧
    calculate_auto_score examThree ansTwoOfThree = Except.ok (13/2) :=
  claim_C4_three_unit_boundaries examThree examThree ansOneOfThree ansTwoOfThree
    (by decide) (by decide) (by decide) (by decide)

/-- C5: a question set with zero leaf grading units scores 0.0 for every
answer mapping (defined policy, not an error). -/
theorem claim_C5_zero_units (e : Exam) (a : AnswerMap)
    (h : e.leafUnits.length = 0) :
    calculate_auto_score e a = Except.ok 0 := by
  rw [calculate_auto_score_eq, h, bandScore_zero_total]

/-- Witness for C5 at a concrete empty reading exam. -/
theorem claim_C5_witness : calculate_auto_score examEmpty ansOne = Except.ok 0 :=
  claim_C5_zero_units examEmpty ansOne (by decide)

/-- C6 counterexample: the claim says the normalizer fails (raises) on a
zero-element sequence, but `normalize_answer []` returns normally — the
falsiness check `if not ans` catches `[]` before the `ans[0]` indexing. -/
theorem claim_C6_counterexample :
    isOkResult (normalize_answer (PyVal.vList [])) = true := rfl

/-- C6 (amended): a submitted value that is a zero-element sequence makes the
normalizer return the empty token, not raise. -/
theorem claim_C6_empty_list_token :
    normalize_answer (PyVal.vList []) = Except.ok "" := rfl

/-- C7: the normalizer maps `"B"`, `["b","x"]`, `" B "` and `"b2"` to `"b"`,
and `None` and `""` to the empty token; in general a string input yields
`tokenOfString` of it (strip, lower, first character, empty token when the
stripped string is empty) and a sequence headed by a string yields the token
of that first element. -/
theorem claim_C7_normalizer_examples :
    normalize_answer (PyVal.vStr "B") = Except.ok "b" ∧
    normalize_answer (PyVal.vList [PyVal.vStr "b", PyVal.vStr "x"]) = Except.ok "b" ∧
    normalize_answer (PyVal.vStr " B ") = Except.ok "b" ∧
    normalize_answer (PyVal.vStr "b2") = Except.ok "b" ∧
    normalize_answer PyVal.vNone = Except.ok "" ∧
    normalize_answer (PyVal.vStr "") = Except.ok "" ∧
    (∀ s : String, normalize_answer (PyVal.vStr s) = Except.ok (tokenOfString s)) ∧
    (∀ (s : String) (rest : List PyVal),
      normalize_answer (PyVal.vList (PyVal.vStr s :: rest)) =
        Except.ok (tokenOfString s)) :=
  ⟨rfl, rfl, rfl, rfl, rfl, rfl, normalize_answer_str, normalize_answer_str_list⟩

/-- C8 counterexample: an exam with zero leaf units vacuously satisfies
"every leaf unit's key is present and matches", yet the score is 0.0, not
9.0, so the claim as stated fails on the empty question set. -/
theorem claim_C8_counterexample :
    examEmpty.leafUnits.all (fun sq => countedCorrect [] sq) = true ∧
    calculate_auto_score examEmpty [] ≠ Except.ok 9 := by
  refine ⟨rfl, ?_⟩
  have h0 : calculate_auto_score examEmpty [] = Except.ok 0 := by
    rw [calculate_auto_score_eq]; rfl
  rw [h0]
  intro hcontra
  exact absurd (Except.ok.inj hcontra) (by norm_num)

/-- C8 (amended): for a question set with at least one leaf unit in which
every leaf unit is counted correct, the score is exactly 9.0 (the clamp is
inactive at 100%). -/
theorem claim_C8_all_correct (e : Exam) (a : AnswerMap)
    (h0 : 0 < e.leafUnits.length)
    (hall : e.leafUnits.all (fun sq => countedCorrect a sq) = true) :
    calculate_auto_score e a = Except.ok 9 := by
  rw [calculate_auto_score_eq]
  have hc : correctCount a e.leafUnits = e.leafUnits.length := by
    unfold correctCount
    rw [List.countP_eq_length]
    intro sq hsq
    exact List.all_eq_true.mp hall sq hsq
  rw [hc, bandScore_full _ (Nat.pos_iff_ne_zero.mp h0)]

/-- Witness for the amended C8 at a concrete all-correct one-unit exam. -/
theorem claim_C8_witness : calculate_auto_score examOne ansOne = Except.ok 9 :=
  claim_C8_all_correct examOne ansOne (by decide) (by decide)

/-- C9: a leaf unit whose `correct_answer` normalizes to the empty token is
counted correct exactly when its key is present and the submitted value also
normalizes to the empty token. -/
theorem claim_C9_empty_token_match (a : AnswerMap) (acc : Nat × Nat)
    (sq : SubQuestion)
    (h : normalize_answer sq.correct_answer = Except.ok "") :
    stepSubq a acc sq = Except.ok (acc.1 + 1, acc.2 + 1) ↔
      ∃ v, a.lookup ("q_" ++ toString sq.id) = some v ∧
        normalize_answer v = Except.ok "" := by
  have hc : normTok sq.correct_answer = "" := by
    have hn := normalize_answer_ok sq.correct_answer
    rw [h] at hn
    exact (Except.ok.inj hn).symm
  rw [stepSubq_eq]
  constructor
  · intro heq
    have hpair := Except.ok.inj heq
    have h1 : acc.1 + (if countedCorrect a sq then 1 else 0) = acc.1 + 1 :=
      congrArg Prod.fst hpair
    have hcc : countedCorrect a sq = true := by
      by_contra hfalse
      rw [Bool.not_eq_true] at hfalse
      rw [hfalse] at h1
      simp at h1
    unfold countedCorrect at hcc
    cases hl : a.lookup ("q_" ++ toString sq.id) with
    | none => rw [hl] at hcc; cases hcc
    | some v =>
      rw [hl] at hcc
      refine ⟨v, rfl, ?_⟩
      rw [normalize_answer_ok, beq_iff_eq.mp hcc, hc]
  · rintro ⟨v, hl, hv⟩
    have hvtok : normTok v = "" := by
      have hn := normalize_answer_ok v
      rw [hv] at hn
      exact (Except.ok.inj hn).symm
    have hcc : countedCorrect a sq = true := by
      unfold countedCorrect
      rw [hl]
      show (normTok v == normTok sq.correct_answer) = true
      rw [hvtok, hc]
      rfl
    rw [hcc]
    simp

/-- Witness for C9 at a concrete blank-answer unit. -/
theorem claim_C9_witness :
    stepSubq ansBlank (0, 0) subqBlank = Except.ok (0 + 1, 0 + 1) :=
  (claim_C9_empty_token_match ansBlank (0, 0) subqBlank rfl).mpr
    ⟨PyVal.vStr "   ", rfl, rfl⟩

/-- C10: the normalizer is total on arbitrary values: it never fails, every
falsy value (None, `""`, `[]`, `0`, `False`) yields the empty token, and any
truthy non-string non-sequence value is coerced through `str(...)` before
strip/lower/first-character extraction. -/
theorem claim_C10_normalizer_total :
    (∀ v : PyVal, ∃ s, normalize_answer v = Except.ok s) ∧
    (normalize_answer PyVal.vNone = Except.ok "" ∧
     normalize_answer (PyVal.vStr "") = Except.ok "" ∧
     normalize_answer (PyVal.vList []) = Except.ok "" ∧
     normalize_answer (PyVal.vInt 0) = Except.ok "" ∧
     normalize_answer (PyVal.vBool false) = Except.ok "") ∧
    (∀ v : PyVal, v.truthy = true → v.isStrVal = false → v.isListVal = false →
      normalize_answer v = Except.ok (tokenOfString v.toStr)) := by
  refine ⟨fun v => ⟨normTok v, normalize_answer_ok v⟩, ⟨rfl, rfl, rfl, rfl, rfl⟩, ?_⟩
  intro v ht hs hl
  cases v with
  | vNone => exact absurd ht (by decide)
  | vBool b =>
    cases b
    · exact absurd ht (by decide)
    · rfl
  | vInt n =>
    have hn : (n != 0) = true := ht
    simp only [normalize_answer, PyVal.truthy, hn, Bool.not_true, Bool.false_eq_true,
      if_false]
    rfl
  | vStr s => simp [PyVal.isStrVal] at hs
  | vList xs => simp [PyVal.isListVal] at hl

/-- Witness for C10 at a concrete non-string truthy value. -/
theorem claim_C10_witness :
    normalize_answer (PyVal.vInt 7) = Except.ok (tokenOfString (PyVal.vInt 7).toStr) :=
  claim_C10_normalizer_total.2.2 (PyVal.vInt 7) rfl rfl rfl
